import Mathlib

/-!
Verification of the cashback-analysis core of `src/app.py`.

Modelling conventions for the shallow embedding:
* Python floats (all monetary amounts and percentages) are modelled as exact
  rationals `ℚ`.
* `datetime` values are modelled as proleptic-Gregorian day numbers (`Int`),
  so `(d1 - d2).days` becomes plain integer subtraction.
* Python dicts keyed by bracket label (the cashback configuration) are
  modelled as total functions `String → Config`.
* A Python exception escaping a function is modelled with `Except Unit`.
* The regex scanners of `parse_order_history` are modelled character by
  character over ASCII input, with `re.search`/`re.findall` leftmost,
  non-overlapping semantics.
-/

deriving instance DecidableEq for Except

namespace CashBack

/-- Python's `min` on two numbers (left value on ties), written with the
computable decidable order on `ℚ` so concrete runs evaluate by `decide`. -/
def pyMin (a b : ℚ) : ℚ := if a ≤ b then a else b

/-- ASCII whitespace, as matched by the regex class used in `app.py`. -/
def isSpaceCh (c : Char) : Bool :=
  c = ' ' || c = '\t' || c = '\n' || c = '\x0d' || c = '\x0b' || c = '\x0c'

/-- Characters of the numeric-token class in the revenue regexes. -/
def isNumTokCh (c : Char) : Bool := c.isDigit || c = ','

/-- Characters of the order-id class in the order-id regex. -/
def isIdCh (c : Char) : Bool := c = '#' || (('A' ≤ c) && (c ≤ 'Z')) || c.isDigit

/-- Quote characters accepted by the regexes (double or single quote). -/
def isQuoteCh (c : Char) : Bool := c = '"' || c.toNat = 39

/-- An order event, as produced by `parse_order_history` (`src/app.py` lines 22-39). -/
structure Order where
  order_id : String
  order_date : String
  silver_revenue : ℚ
  gold_revenue : ℚ
  promo_amount : ℚ
deriving DecidableEq, Repr

/-- A calendar date, result of a successful `datetime.strptime(s, "%Y-%m-%d")`. -/
structure Date where
  y : Nat
  m : Nat
  d : Nat
deriving DecidableEq, Repr

/-- Decimal value of a list of digit characters. -/
def digitsToNat (l : List Char) : Nat :=
  l.foldl (fun n c => 10 * n + (c.toNat - 48)) 0

/-- Split a character list at every dash, like `str.split("-")`. -/
def splitDash : List Char → List (List Char)
  | [] => [[]]
  | c :: rest =>
    if c = '-' then [] :: splitDash rest
    else
      match splitDash rest with
      | [] => [[c]]
      | g :: gs => (c :: g) :: gs

def isLeapYear (y : Nat) : Bool :=
  y % 4 = 0 && (y % 100 ≠ 0 || y % 400 = 0)

def daysInMonth (y m : Nat) : Nat :=
  if m = 2 then (if isLeapYear y then 29 else 28)
  else if m = 4 ∨ m = 6 ∨ m = 9 ∨ m = 11 then 30
  else 31

/-- Model of `datetime.strptime(s, "%Y-%m-%d")` (`src/app.py` lines 92, 202):
CPython accepts exactly four digits for `%Y`, one or two digits for `%m`
(value 1..12) and `%d` (value 1..31), requires the whole string to be
consumed, and the `datetime` constructor then validates the day against the
month length and the year against `MINYEAR = 1`. -/
def parseDate (s : String) : Option Date :=
  match splitDash s.toList with
  | [ys, ms, ds] =>
    let y := digitsToNat ys
    let m := digitsToNat ms
    let d := digitsToNat ds
    if ys.length = 4 ∧ ys.all Char.isDigit ∧ 1 ≤ y ∧
        (ms.length = 1 ∨ ms.length = 2) ∧ ms.all Char.isDigit ∧ 1 ≤ m ∧ m ≤ 12 ∧
        (ds.length = 1 ∨ ds.length = 2) ∧ ds.all Char.isDigit ∧ 1 ≤ d ∧
        d ≤ daysInMonth y m
    then some ⟨y, m, d⟩ else none
  | _ => none

/-- Proleptic-Gregorian day number (Julian day number formula); only
differences of these values are ever used, matching `timedelta.days` on
midnight datetimes. -/
def dateToDays (dt : Date) : Int :=
  let a := (14 - dt.m) / 12
  let yy := dt.y + 4800 - a
  let mm := dt.m + 12 * a - 3
  (dt.d : Int) + ((153 * mm + 2) / 5 : Nat) + 365 * (yy : Int) + ((yy / 4 : Nat) : Int)
    - ((yy / 100 : Nat) : Int) + ((yy / 400 : Nat) : Int) - 32045

def digitCh (n : Nat) : Char :=
  match n with
  | 0 => '0'
  | 1 => '1'
  | 2 => '2'
  | 3 => '3'
  | 4 => '4'
  | 5 => '5'
  | 6 => '6'
  | 7 => '7'
  | 8 => '8'
  | _ => '9'

/-- Big-endian fixed-width decimal rendering (`w` digits, zero padded). -/
def digitsBE : Nat → Nat → List Char
  | 0, _ => []
  | w + 1, n => digitsBE w (n / 10) ++ [digitCh (n % 10)]

/-- Model of `order_date.strftime("%Y-%m")` (zero padded; years of parsed
dates always have exactly four digits). -/
def monthKey (dt : Date) : String :=
  String.mk (digitsBE 4 dt.y ++ '-' :: digitsBE 2 dt.m)

/-- A zero-padded `YYYY-MM-DD` date string. -/
def fmtDate (y m d : Nat) : String :=
  String.mk (digitsBE 4 y ++ '-' :: digitsBE 2 m ++ '-' :: digitsBE 2 d)

/-! ### The order-record parser (`parse_order_history`, lines 15-41) -/

def recOpenLit : List Char := "\x7b:order_id".toList
def litOrderId : List Char := ":order_id".toList
def litOrderDate : List Char := ":order_date".toList
def litHashT : List Char := "#t".toList
def litSilver : List Char := ":silver_revenue".toList
def litGold : List Char := ":gold_revenue".toList
def litPromo : List Char := ":promo_amount".toList

/-- `re.findall(r"\{:order_id[^}]+\}", s)`: leftmost, non-overlapping
matches; each match runs from a `{:order_id` opening to the first closing
brace after at least one non-brace character.  The fuel argument only
drives termination: every step consumes at least one character, so
`cs.length` fuel is always sufficient. -/
def findRecsAux : Nat → List Char → List (List Char)
  | 0, _ => []
  | fuel + 1, cs =>
    match cs with
    | [] => []
    | _ :: rest =>
      if recOpenLit.isPrefixOf cs then
        let t := cs.drop recOpenLit.length
        let content := t.takeWhile (fun x => x ≠ '\x7d')
        match t.dropWhile (fun x => x ≠ '\x7d') with
        | [] => findRecsAux fuel rest
        | _ :: r2 =>
          if content.isEmpty then findRecsAux fuel rest
          else (recOpenLit ++ content ++ ['\x7d']) :: findRecsAux fuel r2
      else findRecsAux fuel rest

def findOrderRecords (cs : List Char) : List (List Char) :=
  findRecsAux cs.length cs

/-- `re.search` driver: try the position matcher at each suffix, leftmost
match wins. -/
def searchAux (m : List Char → Option (List Char)) : List Char → Option (List Char)
  | [] => m []
  | c :: rest =>
    match m (c :: rest) with
    | some t => some t
    | none => searchAux m rest

def matchLit (lit cs : List Char) : Option (List Char) :=
  if lit.isPrefixOf cs then some (cs.drop lit.length) else none

/-- `\s+`: at least one whitespace character, greedy. -/
def matchSpaces1 (cs : List Char) : Option (List Char) :=
  match cs with
  | [] => none
  | c :: rest => if isSpaceCh c then some (rest.dropWhile isSpaceCh) else none

/-- `([\d,]+\.?\d*)`: the captured numeric token (the optional trailing `M`
of the regex never affects the capture). -/
def matchNumTok (cs : List Char) : Option (List Char) :=
  let t1 := cs.takeWhile isNumTokCh
  if t1.isEmpty then none
  else
    match cs.dropWhile isNumTokCh with
    | '.' :: r2 => some (t1 ++ '.' :: r2.takeWhile Char.isDigit)
    | _ => some t1

def numMatchAt (marker cs : List Char) : Option (List Char) :=
  match matchLit marker cs with
  | none => none
  | some r1 =>
    match matchSpaces1 r1 with
    | none => none
    | some r2 => matchNumTok r2

/-- `re.search(marker + r"\s+([\d,]+\.?\d*)M?", record)`. -/
def searchNum (marker cs : List Char) : Option (List Char) :=
  searchAux (numMatchAt marker) cs

/-- Position matcher for `:order_date\s+#t\s+["\']([^"\']+)["\']`. -/
def dateMatchAt (cs : List Char) : Option (List Char) :=
  match matchLit litOrderDate cs with
  | none => none
  | some r1 =>
    match matchSpaces1 r1 with
    | none => none
    | some r2 =>
      match matchLit litHashT r2 with
      | none => none
      | some r3 =>
        match matchSpaces1 r3 with
        | none => none
        | some r4 =>
          match r4 with
          | [] => none
          | q :: r5 =>
            if isQuoteCh q then
              let tok := r5.takeWhile (fun x => !(isQuoteCh x))
              if tok.isEmpty then none
              else
                match r5.dropWhile (fun x => !(isQuoteCh x)) with
                | [] => none
                | _ :: _ => some tok
            else none

/-- Position matcher for `:order_id\s+["\']?([#A-Z0-9]+)["\']?`; when the
optional opening quote is present but not followed by an id character the
regex backtracks and then fails at this position. -/
def idMatchAt (cs : List Char) : Option (List Char) :=
  match matchLit litOrderId cs with
  | none => none
  | some r1 =>
    match matchSpaces1 r1 with
    | none => none
    | some r2 =>
      match r2 with
      | [] => none
      | c :: r3 =>
        if isQuoteCh c then
          let tok := r3.takeWhile isIdCh
          if tok.isEmpty then none else some tok
        else
          let tok := (c :: r3).takeWhile isIdCh
          if tok.isEmpty then none else some tok

def searchDate (cs : List Char) : Option (List Char) := searchAux dateMatchAt cs

def searchId (cs : List Char) : Option (List Char) := searchAux idMatchAt cs

/-- `token.replace(",", "")`. -/
def dropCommas (tok : List Char) : List Char := tok.filter (fun c => c ≠ ',')

/-- Integer part of a `\d*\.?\d*` numeral. -/
def intPart (t : List Char) : List Char := t.takeWhile (fun c => c ≠ '.')

/-- Fractional part of a `\d*\.?\d*` numeral. -/
def fracPart (t : List Char) : List Char :=
  match t.dropWhile (fun c => c ≠ '.') with
  | [] => []
  | _ :: r => r

/-- Model of `float(token.replace(",", ""))`: Python's `float` succeeds on
`\d*\.?\d*` exactly when at least one digit is present, otherwise it raises
`ValueError` (modelled by `none`). -/
def pyFloatNum (tok : List Char) : Option ℚ :=
  if intPart (dropCommas tok) = [] ∧ fracPart (dropCommas tok) = [] then none
  else some ((digitsToNat (intPart (dropCommas tok)) : ℚ) +
    (digitsToNat (fracPart (dropCommas tok)) : ℚ) /
      (10 : ℚ) ^ (fracPart (dropCommas tok)).length)

/-- One numeric field of a sub-record: a missing field defaults to `0.0`, a
matched token that `float` rejects raises. -/
def numField (marker cs : List Char) : Except Unit ℚ :=
  match searchNum marker cs with
  | none => Except.ok 0
  | some tok =>
    match pyFloatNum tok with
    | some q => Except.ok q
    | none => Except.error ()

/-- Parse one extracted sub-record (`src/app.py` lines 22-39). -/
def parseOrderRecord (cs : List Char) : Except Unit Order := do
  let oid :=
    match searchId cs with
    | some t => String.mk t
    | none => "N/A"
  let odate :=
    match searchDate cs with
    | some t => String.mk t
    | none => "N/A"
  let silver ← numField litSilver cs
  let gold ← numField litGold cs
  let promo ← numField litPromo cs
  return { order_id := oid, order_date := odate, silver_revenue := silver,
           gold_revenue := gold, promo_amount := promo }

/-- `parse_order_history` (`src/app.py` lines 15-41). -/
def parse_order_history (s : String) : Except Unit (List Order) :=
  (findOrderRecords s.toList).mapM parseOrderRecord

/-- An LTV bracket; `max = none` models `float("inf")`. -/
structure Bracket where
  min : ℚ
  max : Option ℚ
  label : String
deriving DecidableEq, Repr

/-- `ltv < bracket["max"]`, where every finite value is below infinity. -/
def ltvLtMax (v : ℚ) (mx : Option ℚ) : Bool :=
  match mx with
  | none => true
  | some m => decide (v < m)

/-- `get_ltv_bracket` (`src/app.py` lines 43-48); on an empty list Python
would raise `IndexError`, modelled by the junk label `""` (never reached
for the non-empty configurations the claims quantify over). -/
def get_ltv_bracket (v : ℚ) (brackets : List Bracket) : String :=
  match brackets.find? (fun b => ltvLtMax v b.max) with
  | some b => b.label
  | none =>
    match brackets.getLast? with
    | some b => b.label
    | none => ""

/-- Per-bracket cashback rates. -/
structure Config where
  silver_cb : ℚ
  gold_cb : ℚ
  redeem_pct : ℚ
deriving DecidableEq, Repr

/-- A wallet ledger entry (`wallet_transactions` element).  The full-history
driver also stores a dead `expiry_days` key (line 245) that is never read;
it is omitted. -/
structure Txn where
  balance : ℚ
  earned_date : Int
deriving DecidableEq, Repr

def walletBalance (w : List Txn) : ℚ := (w.map Txn.balance).sum

/-- Expiry filter (lines 105-108 / 211-214): keep entries at most
`expiryDays` old relative to the current order's date. -/
def expireWallet (w : List Txn) (asOf expiryDays : Int) : List Txn :=
  w.filter (fun t => asOf - t.earned_date ≤ expiryDays)

/-- FIFO deduction loop (lines 126-132 / 232-238): walk the entries oldest
first, deducting `min(balance, remaining)` until nothing remains. -/
def redeemFIFO : List Txn → ℚ → List Txn
  | [], _ => []
  | t :: ts, r =>
    if r ≤ 0 then t :: ts
    else
      let d := pyMin t.balance r
      { t with balance := t.balance - d } :: redeemFIFO ts (r - d)

/-- Credit (lines 135-139 / 241-246): append a new entry only when the
earned cashback is positive. -/
def creditWallet (w : List Txn) (amount : ℚ) (day : Int) : List Txn :=
  if 0 < amount then w ++ [{ balance := amount, earned_date := day }] else w

/-! ### Python's stable sort on the raw date string (lines 83 / 188) -/

/-- Lexicographic code-point comparison of character lists — Python's `<`
on strings (kept first-order so concrete runs evaluate by `decide`). -/
def charListLt : List Char → List Char → Bool
  | [], [] => false
  | [], _ :: _ => true
  | _ :: _, [] => false
  | a :: as, b :: bs =>
    if a.toNat < b.toNat then true
    else if b.toNat < a.toNat then false
    else charListLt as bs

/-- Python's `<=` on strings: `a <= b` iff `not (b < a)`. -/
def pyStrLe (a b : String) : Bool := !(charListLt b.toList a.toList)

/-- Insert after every element whose key is `≤` the new key — the insertion
step of a stable sort. -/
def insSorted (o : Order) : List Order → List Order
  | [] => [o]
  | x :: xs =>
    if pyStrLe x.order_date o.order_date then x :: insSorted o xs
    else o :: x :: xs

/-- `order_history.sort(key=lambda x: x["order_date"])`: Python's sort is
stable and compares the raw date strings by code points; a stable sort
w.r.t. a total preorder is unique, so this insertion sort models it. -/
def pySortOrders (l : List Order) : List Order :=
  l.foldl (fun acc o => insSorted o acc) []

/-! ### Full-history driver (`calculate_cashback`, lines 180-291) -/

structure FullState where
  wallet : List Txn
  cumulative_ltv : ℚ
  total_silver_rev : ℚ
  total_gold_rev : ℚ
  total_promo : ℚ
  total_silver_cb : ℚ
  total_gold_cb : ℚ
  total_coins_used : ℚ
  repeat_revenue : ℚ
deriving DecidableEq, Repr

/-- One row of `monthly_results` (lines 263-274). -/
structure TraceRow where
  customer_id : String
  month : String
  order_date : Int
  ltv_bracket : String
  silver_rev : ℚ
  gold_rev : ℚ
  silver_cb : ℚ
  gold_cb : ℚ
  coins_used : ℚ
  wallet_balance : ℚ
deriving DecidableEq, Repr

def initFullState : FullState := ⟨[], 0, 0, 0, 0, 0, 0, 0, 0⟩

/-- Body of the per-order loop of `calculate_cashback` (lines 200-274);
`orderNum` is the `enumerate(order_history, 1)` index, which counts every
parsed order, valid date or not. -/
def processOrderFull (cfg : String → Config) (brackets : List Bracket) (expiryDays : Int)
    (cid : String) (orderNum : Nat) (o : Order) (st : FullState) :
    FullState × Option TraceRow :=
  match parseDate o.order_date with
  | none => (st, none)
  | some dt =>
    let day := dateToDays dt
    let currentBracket := get_ltv_bracket st.cumulative_ltv brackets
    let config := cfg currentBracket
    let wallet0 := expireWallet st.wallet day expiryDays
    let walletBal := walletBalance wallet0
    let orderValue := o.silver_revenue + o.gold_revenue
    let silverCb := o.silver_revenue * (config.silver_cb / 100)
    let goldCb := o.gold_revenue * (config.gold_cb / 100)
    let totalCb := silverCb + goldCb
    let coinsUsed :=
      if 1 < orderNum then pyMin walletBal (orderValue * (config.redeem_pct / 100)) else 0
    let wallet1 :=
      if 1 < orderNum then
        redeemFIFO wallet0 (pyMin walletBal (orderValue * (config.redeem_pct / 100)))
      else wallet0
    let wallet2 := creditWallet wallet1 totalCb day
    let amountPaid := orderValue - coinsUsed - o.promo_amount
    let row : TraceRow :=
      { customer_id := cid, month := monthKey dt, order_date := day,
        ltv_bracket := currentBracket, silver_rev := o.silver_revenue,
        gold_rev := o.gold_revenue, silver_cb := silverCb, gold_cb := goldCb,
        coins_used := coinsUsed, wallet_balance := walletBalance wallet2 }
    ({ wallet := wallet2,
       cumulative_ltv := st.cumulative_ltv + amountPaid,
       total_silver_rev := st.total_silver_rev + o.silver_revenue,
       total_gold_rev := st.total_gold_rev + o.gold_revenue,
       total_promo := st.total_promo + o.promo_amount,
       total_silver_cb := st.total_silver_cb + silverCb,
       total_gold_cb := st.total_gold_cb + goldCb,
       total_coins_used := st.total_coins_used + coinsUsed,
       repeat_revenue :=
         if 1 < orderNum then st.repeat_revenue + orderValue else st.repeat_revenue },
     some row)

/-- The per-customer loop of `calculate_cashback` over the sorted orders,
threading the `enumerate` index. -/
def runOrdersFull (cfg : String → Config) (brackets : List Bracket) (expiryDays : Int)
    (cid : String) : List Order → Nat → FullState → FullState × List TraceRow
  | [], _, st => (st, [])
  | o :: os, n, st =>
    let p := processOrderFull cfg brackets expiryDays cid n o st
    let rest := runOrdersFull cfg brackets expiryDays cid os (n + 1) p.1
    (rest.1,
      match p.2 with
      | none => rest.2
      | some row => row :: rest.2)

/-- Per-customer lifetime aggregate (`customer_results[customer_id]`,
lines 278-289). -/
structure CustAgg where
  final_ltv : ℚ
  total_silver_rev : ℚ
  total_gold_rev : ℚ
  repeat_revenue : ℚ
  total_promo : ℚ
  total_silver_cb : ℚ
  total_gold_cb : ℚ
  total_coins_used : ℚ
  final_wallet_balance : ℚ
  num_orders : Nat
deriving DecidableEq, Repr

def runCustomerFull (cfg : String → Config) (brackets : List Bracket) (expiryDays : Int)
    (cid : String) (orders : List Order) : CustAgg × List TraceRow :=
  let sorted := pySortOrders orders
  let res := runOrdersFull cfg brackets expiryDays cid sorted 1 initFullState
  ({ final_ltv := res.1.cumulative_ltv,
     total_silver_rev := res.1.total_silver_rev,
     total_gold_rev := res.1.total_gold_rev,
     repeat_revenue := res.1.repeat_revenue,
     total_promo := res.1.total_promo,
     total_silver_cb := res.1.total_silver_cb,
     total_gold_cb := res.1.total_gold_cb,
     total_coins_used := res.1.total_coins_used,
     final_wallet_balance := walletBalance res.1.wallet,
     num_orders := sorted.length }, res.2)

/-- Python dict assignment: overwrite in place or append. -/
def dictInsert (l : List (String × CustAgg)) (k : String) (v : CustAgg) :
    List (String × CustAgg) :=
  if (l.lookup k).isSome then l.map (fun p => if p.1 = k then (k, v) else p)
  else l ++ [(k, v)]

/-- One `df.iterrows()` step of `calculate_cashback`. -/
def fullDfStep (cfg : String → Config) (brackets : List Bracket) (expiryDays : Int)
    (acc : List (String × CustAgg) × List TraceRow) (row : String × String) :
    Except Unit (List (String × CustAgg) × List TraceRow) := do
  let orders ← parse_order_history row.2
  let res := runCustomerFull cfg brackets expiryDays row.1 orders
  return (dictInsert acc.1 row.1 res.1, acc.2 ++ res.2)

/-- `calculate_cashback` (`src/app.py` lines 180-291): per-customer lifetime
aggregates plus the concatenated per-order trace. -/
def calculate_cashback (df : List (String × String)) (cfg : String → Config)
    (brackets : List Bracket) (expiryDays : Int) :
    Except Unit (List (String × CustAgg) × List TraceRow) :=
  df.foldlM (fullDfStep cfg brackets expiryDays) ([], [])

/-! ### Month-scoped driver (`calculate_cashback_for_month`, lines 50-178,
modelling the `use_ltv=False` path) -/

structure MonthAcc where
  total_silver_rev : ℚ
  total_gold_rev : ℚ
  total_promo : ℚ
  total_silver_cb : ℚ
  total_gold_cb : ℚ
  total_coins_used : ℚ
  total_coin_balance : ℚ
  unique_customers : List String
deriving DecidableEq, Repr

def initMonthAcc : MonthAcc := ⟨0, 0, 0, 0, 0, 0, 0, []⟩

structure MonthState where
  wallet : List Txn
  cumulative_ltv : ℚ
  order_num : Nat
  contributed : Bool
deriving DecidableEq, Repr

def initMonthState : MonthState := ⟨[], 0, 0, false⟩

/-- Set insertion, modelling `results["unique_customers"].add(...)`. -/
def addCustomer (l : List String) (c : String) : List String :=
  if c ∈ l then l else l ++ [c]

/-- Body of the per-order loop of `calculate_cashback_for_month`
(lines 90-164); here `order_num` is incremented only after a successful
date parse. -/
def processOrderMonth (cfg : String → Config) (brackets : List Bracket) (expiryDays : Int)
    (targetMonth : String) (cid : String) (s : MonthState × MonthAcc) (o : Order) :
    MonthState × MonthAcc :=
  match parseDate o.order_date with
  | none => s
  | some dt =>
    let st := s.1
    let acc := s.2
    let n := st.order_num + 1
    let isTarget := monthKey dt = targetMonth
    let day := dateToDays dt
    let currentBracket := get_ltv_bracket st.cumulative_ltv brackets
    let config := cfg currentBracket
    let wallet0 := expireWallet st.wallet day expiryDays
    let walletBal := walletBalance wallet0
    let orderValue := o.silver_revenue + o.gold_revenue
    let silverCb := o.silver_revenue * (config.silver_cb / 100)
    let goldCb := o.gold_revenue * (config.gold_cb / 100)
    let totalCb := silverCb + goldCb
    let coinsUsed :=
      if 1 < n then pyMin walletBal (orderValue * (config.redeem_pct / 100)) else 0
    let wallet1 :=
      if 1 < n then
        redeemFIFO wallet0 (pyMin walletBal (orderValue * (config.redeem_pct / 100)))
      else wallet0
    let wallet2 := creditWallet wallet1 totalCb day
    let amountPaid := orderValue - coinsUsed - o.promo_amount
    let st2 : MonthState :=
      { wallet := wallet2, cumulative_ltv := st.cumulative_ltv + amountPaid,
        order_num := n,
        contributed := if isTarget then true else st.contributed }
    let acc2 : MonthAcc :=
      if isTarget then
        { acc with
          total_silver_rev := acc.total_silver_rev + o.silver_revenue,
          total_gold_rev := acc.total_gold_rev + o.gold_revenue,
          total_promo := acc.total_promo + o.promo_amount,
          total_silver_cb := acc.total_silver_cb + silverCb,
          total_gold_cb := acc.total_gold_cb + goldCb,
          total_coins_used := acc.total_coins_used + coinsUsed,
          unique_customers := addCustomer acc.unique_customers cid }
      else acc
    (st2, acc2)

/-- One customer of the month-scoped driver, including the terminal wallet
balance added for contributing customers (lines 166-176). -/
def runCustomerMonth (cfg : String → Config) (brackets : List Bracket) (expiryDays : Int)
    (targetMonth : String) (cid : String) (orders : List Order) (acc : MonthAcc) :
    MonthAcc :=
  let sorted := pySortOrders orders
  let res := sorted.foldl (processOrderMonth cfg brackets expiryDays targetMonth cid)
    (initMonthState, acc)
  let finalWallet := walletBalance res.1.wallet
  if res.1.contributed then
    { res.2 with total_coin_balance := res.2.total_coin_balance + finalWallet }
  else res.2

/-- One `df.iterrows()` step of `calculate_cashback_for_month`. -/
def monthDfStep (cfg : String → Config) (brackets : List Bracket) (expiryDays : Int)
    (targetMonth : String) (acc : MonthAcc) (row : String × String) :
    Except Unit MonthAcc := do
  let orders ← parse_order_history row.2
  return runCustomerMonth cfg brackets expiryDays targetMonth row.1 orders acc

/-- `calculate_cashback_for_month` with `use_ltv=False`
(`src/app.py` lines 50-178). -/
def calculate_cashback_for_month (df : List (String × String)) (targetMonth : String)
    (cfg : String → Config) (brackets : List Bracket) (expiryDays : Int) :
    Except Unit MonthAcc :=
  df.foldlM (monthDfStep cfg brackets expiryDays targetMonth) initMonthAcc

/-! ### Specification-side helper functions -/

/-- Revenue of the valid orders of a given month, read off the order list
itself (state independent). -/
def monthRevSum (f : Order → ℚ) (M : String) (os : List Order) : ℚ :=
  (os.map (fun o =>
    match parseDate o.order_date with
    | some dt => if monthKey dt = M then f o else 0
    | none => 0)).sum

/-- Sum of a trace-row field over the rows of one month. -/
def traceMonthSum (f : TraceRow → ℚ) (M : String) (rows : List TraceRow) : ℚ :=
  ((rows.filter (fun r => r.month = M)).map f).sum

/-- Month-restricted revenue over a whole dataset, customer by customer. -/
def dfMonthSum (f : Order → ℚ) (M : String) (df : List (String × String)) : ℚ :=
  (df.map (fun row =>
    monthRevSum f M (pySortOrders (((parse_order_history row.2).toOption).getD [])))).sum

def orderA : Order := ⟨"A1", "2024-01-01", 1000, 0, 0⟩

def orderB : Order := ⟨"B1", "2024-01-31", 1000, 0, 0⟩

def bracketsOne : List Bracket := [⟨0, none, "all"⟩]

def cfgStd : String → Config := fun _ => ⟨4, 2, 20⟩

def dayA : Int := dateToDays ⟨2024, 1, 1⟩

def dayB : Int := dateToDays ⟨2024, 1, 31⟩

def rowA : TraceRow := ⟨"C1", "2024-01", dayA, "all", 1000, 0, 40, 0, 0, 40⟩

def rowB : TraceRow := ⟨"C1", "2024-01", dayB, "all", 1000, 0, 40, 0, 40, 40⟩

def aggC1 : CustAgg := ⟨1960, 2000, 0, 1000, 0, 80, 0, 40, 40, 2⟩

/-- The run of the full-history simulator on the C1 scenario orders. -/
def c1Run : CustAgg × List TraceRow :=
  runCustomerFull cfgStd bracketsOne 180 "C1" [orderA, orderB]

def blobC1 : String :=
  "\x7b:order_id A1 :order_date #t \"2024-01-01\" :silver_revenue 1000 :gold_revenue 0 :promo_amount 0\x7d\x7b:order_id B1 :order_date #t \"2024-01-31\" :silver_revenue 1000 :gold_revenue 0 :promo_amount 0\x7d"

set_option maxRecDepth 8000

lemma pyMin_eq_left {a b : ℚ} (h : a ≤ b) : pyMin a b = a := if_pos h

lemma pyMin_eq_right {a b : ℚ} (h : b ≤ a) : pyMin a b = b := by
  unfold pyMin
  split_ifs with h2
  · exact le_antisymm h2 h
  · rfl

lemma redeemFIFO_two_le (a1 a2 amt : ℚ) (d1 d2 : Int) (h0 : 0 ≤ amt) (hle : amt ≤ a1) :
    redeemFIFO [⟨a1, d1⟩, ⟨a2, d2⟩] amt = [⟨a1 - amt, d1⟩, ⟨a2, d2⟩] := by
  rcases eq_or_lt_of_le h0 with h | h
  · simp [redeemFIFO, ← h]
  · have hnot : ¬ amt ≤ 0 := not_le.mpr h
    have hmin : pyMin a1 amt = amt := pyMin_eq_right hle
    simp [redeemFIFO, hnot, hmin]

lemma redeemFIFO_two_gt (a1 a2 amt : ℚ) (d1 d2 : Int) (h1 : 0 < a1) (hgt : a1 < amt)
    (hle : amt ≤ a1 + a2) :
    redeemFIFO [⟨a1, d1⟩, ⟨a2, d2⟩] amt = [⟨0, d1⟩, ⟨a2 - (amt - a1), d2⟩] := by
  have hnot : ¬ amt ≤ 0 := not_le.mpr (lt_trans h1 hgt)
  have hmin : pyMin a1 amt = a1 := pyMin_eq_left (le_of_lt hgt)
  have hnot2 : ¬ amt - a1 ≤ 0 := by
    rw [not_le, sub_pos]; exact hgt
  have hmin2 : pyMin a2 (amt - a1) = amt - a1 := by
    apply pyMin_eq_right; linarith
  simp [redeemFIFO, hnot, hmin, hnot2, hmin2]

/-- C8: ledger FIFO redemption.  With entries E1 (earlier earned date,
balance `a1 > 0`) then E2 (balance `a2 > 0`), redeeming `0 ≤ amt ≤ a1`
reduces E1 by exactly `amt` leaving E2 untouched; redeeming
`a1 < amt ≤ a1 + a2` zeroes E1 and reduces E2 by `amt - a1`; and no entry
balance becomes negative. -/
theorem c8_ledger_fifo (a1 a2 amt : ℚ) (d1 d2 : Int) (hd : d1 ≤ d2)
    (h1 : 0 < a1) (h2 : 0 < a2) :
    (0 ≤ amt → amt ≤ a1 →
      redeemFIFO [⟨a1, d1⟩, ⟨a2, d2⟩] amt = [⟨a1 - amt, d1⟩, ⟨a2, d2⟩])
    ∧ (a1 < amt → amt ≤ a1 + a2 →
      redeemFIFO [⟨a1, d1⟩, ⟨a2, d2⟩] amt = [⟨0, d1⟩, ⟨a2 - (amt - a1), d2⟩])
    ∧ (0 ≤ amt → amt ≤ a1 + a2 →
      ∀ t ∈ redeemFIFO [⟨a1, d1⟩, ⟨a2, d2⟩] amt, 0 ≤ t.balance) := by
  refine ⟨fun h0 hle => redeemFIFO_two_le a1 a2 amt d1 d2 h0 hle,
    fun hgt hle => redeemFIFO_two_gt a1 a2 amt d1 d2 h1 hgt hle, fun h0 hle => ?_⟩
  rcases le_or_lt amt a1 with hc | hc
  · rw [redeemFIFO_two_le a1 a2 amt d1 d2 h0 hc]
    intro t ht
    simp only [List.mem_cons, List.not_mem_nil, or_false] at ht
    rcases ht with rfl | rfl
    · show 0 ≤ a1 - amt
      linarith
    · show 0 ≤ a2
      linarith
  · rw [redeemFIFO_two_gt a1 a2 amt d1 d2 h1 hc hle]
    intro t ht
    simp only [List.mem_cons, List.not_mem_nil, or_false] at ht
    rcases ht with rfl | rfl
    · show 0 ≤ (0 : ℚ)
      exact le_rfl
    · show 0 ≤ a2 - (amt - a1)
      linarith

/-- Closed instance of `c8_ledger_fifo` at `a1 = 30`, `a2 = 50`, `amt = 45`. -/
theorem c8_witness :
    ((0 : ℚ) ≤ 45 → (45 : ℚ) ≤ 30 →
      redeemFIFO [⟨30, 0⟩, ⟨50, 7⟩] 45 = [⟨30 - 45, 0⟩, ⟨50, 7⟩])
    ∧ ((30 : ℚ) < 45 → (45 : ℚ) ≤ 30 + 50 →
      redeemFIFO [⟨30, 0⟩, ⟨50, 7⟩] 45 = [⟨0, 0⟩, ⟨50 - (45 - 30), 7⟩])
    ∧ ((0 : ℚ) ≤ 45 → (45 : ℚ) ≤ 30 + 50 →
      ∀ t ∈ redeemFIFO [⟨30, 0⟩, ⟨50, 7⟩] 45, 0 ≤ t.balance) :=
  c8_ledger_fifo 30 50 45 0 7 (by norm_num) (by norm_num) (by norm_num)

/-- C7: the bracket resolver returns the label of the first bracket whose
upper bound is strictly greater than the value (`ltvLtMax`, with `none`
playing infinity), and the label of the last bracket when none qualifies;
the list is scanned in the caller-supplied order. -/
theorem c7_bracket_resolver (v : ℚ) (bs : List Bracket) (h : bs ≠ []) :
    (∀ b, bs.find? (fun b2 => ltvLtMax v b2.max) = some b →
      get_ltv_bracket v bs = b.label)
    ∧ (bs.find? (fun b2 => ltvLtMax v b2.max) = none →
      get_ltv_bracket v bs = (bs.getLast h).label)
    ∧ (∀ m : ℚ, ltvLtMax v (some m) = true ↔ v < m)
    ∧ ltvLtMax v none = true := by
  refine ⟨?_, ?_, ?_, rfl⟩
  · intro b hb
    simp [get_ltv_bracket, hb]
  · intro hn
    simp [get_ltv_bracket, hn, List.getLast?_eq_getLast _ h]
  · intro m
    simp [ltvLtMax]

/-- Closed instance of `c7_bracket_resolver`. -/
theorem c7_witness : get_ltv_bracket 5000 [⟨0, none, "all"⟩] = "all" :=
  (c7_bracket_resolver 5000 [⟨0, none, "all"⟩] (by simp)).1 ⟨0, none, "all"⟩ (by rfl)

/-- C9: expiry boundary.  An entry credited on day `D` survives the expiry
filter run at day `T` with window `W` exactly when `T - D ≤ W`; both
drivers run the filter with the current order's date before the balance is
read, so the redeemable amount on a non-first order is
`min(balance(expired wallet), order_value * redeem_pct / 100)`. -/
theorem c9_expiry_boundary (w : List Txn) (e : Txn) (T W : Int) (hW : 0 ≤ W)
    (he : e ∈ w) :
    (e ∈ expireWallet w T W ↔ T - e.earned_date ≤ W)
    ∧ (∀ (cfg : String → Config) (brackets : List Bracket) (cid : String) (n : Nat)
        (o : Order) (st : FullState) (dt : Date), parseDate o.order_date = some dt →
        ∀ row, (processOrderFull cfg brackets W cid n o st).2 = some row →
          row.coins_used =
            if 1 < n then
              pyMin (walletBalance (expireWallet st.wallet (dateToDays dt) W))
                ((o.silver_revenue + o.gold_revenue) *
                  ((cfg (get_ltv_bracket st.cumulative_ltv brackets)).redeem_pct / 100))
            else 0)
    ∧ (∀ (cfg : String → Config) (brackets : List Bracket) (M cid : String)
        (st : MonthState) (acc : MonthAcc) (o : Order) (dt : Date),
        parseDate o.order_date = some dt → monthKey dt = M → 0 < st.order_num →
        (processOrderMonth cfg brackets W M cid (st, acc) o).2.total_coins_used =
          acc.total_coins_used +
            pyMin (walletBalance (expireWallet st.wallet (dateToDays dt) W))
              ((o.silver_revenue + o.gold_revenue) *
                ((cfg (get_ltv_bracket st.cumulative_ltv brackets)).redeem_pct / 100))) := by
  refine ⟨?_, ?_, ?_⟩
  · simp [expireWallet, List.mem_filter, he]
  · intro cfg brackets cid n o st dt hdt row hrow
    simp only [processOrderFull, hdt] at hrow
    cases hrow
    rfl
  · intro cfg brackets M cid st acc o dt hdt hM hn
    have h1 : 1 < st.order_num + 1 := by omega
    simp [processOrderMonth, hdt, hM, h1]

/-- Closed instance of the expiry membership boundary of
`c9_expiry_boundary`. -/
theorem c9_witness :
    (⟨5, 0⟩ : Txn) ∈ expireWallet [⟨5, 0⟩] 10 30 ↔ (10 : Int) - 0 ≤ 30 :=
  (c9_expiry_boundary [⟨5, 0⟩] ⟨5, 0⟩ 10 30 (by norm_num) (by simp)).1

lemma calculate_cashback_single (cid blob : String) (cfg : String → Config)
    (brackets : List Bracket) (W : Int) (os : List Order)
    (h : parse_order_history blob = Except.ok os) :
    calculate_cashback [(cid, blob)] cfg brackets W =
      Except.ok ([(cid, (runCustomerFull cfg brackets W cid os).1)],
        (runCustomerFull cfg brackets W cid os).2) := by
  simp [calculate_cashback, fullDfStep, h, dictInsert]

lemma calculate_cashback_for_month_single (cid blob M : String) (cfg : String → Config)
    (brackets : List Bracket) (W : Int) (os : List Order)
    (h : parse_order_history blob = Except.ok os) :
    calculate_cashback_for_month [(cid, blob)] M cfg brackets W =
      Except.ok (runCustomerMonth cfg brackets W M cid os initMonthAcc) := by
  simp [calculate_cashback_for_month, monthDfStep, h]

/-- C1: the concrete two-order scenario.  For any customer blob that parses
to exactly orders A and B (2024-01-01 and 2024-01-31, silver 1000 each),
under one bracket with `silver_cb = 4`, `redeem_pct = 20` and a 180-day
expiry: order A earns 40, redeems 0, pays 1000 (LTV 1000 after A); order B
reads a wallet balance of 40, may use at most 200, redeems 40, earns 40,
pays 960; terminal LTV is 1960 and the terminal wallet balance is 40. -/
theorem c1_concrete_scenario (blob : String)
    (h : parse_order_history blob = Except.ok [orderA, orderB]) :
    calculate_cashback [("C1", blob)] cfgStd bracketsOne 180 =
      Except.ok ([("C1", c1Run.1)], c1Run.2)
    ∧ c1Run.1 = aggC1
    ∧ c1Run.2.map TraceRow.coins_used = [0, 40]
    ∧ c1Run.2.map TraceRow.silver_cb = [40, 40]
    ∧ c1Run.2.map TraceRow.gold_cb = [0, 0]
    ∧ c1Run.2.map TraceRow.wallet_balance = [40, 40]
    ∧ c1Run.2.map TraceRow.month = ["2024-01", "2024-01"]
    ∧ c1Run.2.map TraceRow.ltv_bracket = ["all", "all"]
    ∧ (processOrderFull cfgStd bracketsOne 180 "C1" 1 orderA initFullState).1.cumulative_ltv
        = 1000
    ∧ walletBalance (expireWallet [⟨40, dayA⟩] dayB 180) = 40
    ∧ (1000 + 0 : ℚ) * ((cfgStd "all").redeem_pct / 100) = 200
    ∧ pyMin 40 200 = 40
    ∧ aggC1.final_ltv = 1960
    ∧ aggC1.final_ltv
        - (processOrderFull cfgStd bracketsOne 180 "C1" 1 orderA initFullState).1.cumulative_ltv
        = 960
    ∧ aggC1.final_wallet_balance = 40 := by
  refine ⟨?_, by with_unfolding_all decide, by with_unfolding_all decide,
    by with_unfolding_all decide, by with_unfolding_all decide, by with_unfolding_all decide,
    by with_unfolding_all decide, by with_unfolding_all decide, by with_unfolding_all decide,
    by with_unfolding_all decide, by with_unfolding_all decide, by with_unfolding_all decide,
    by with_unfolding_all decide, by with_unfolding_all decide, by with_unfolding_all decide⟩
  exact calculate_cashback_single "C1" blob cfgStd bracketsOne 180 [orderA, orderB] h

/-- Closed instance of `c1_concrete_scenario` on a concrete blob: the
lifetime aggregate of the two-order customer. -/
theorem c1_witness :
    calculate_cashback [("C1", blobC1)] cfgStd bracketsOne 180 =
      Except.ok ([("C1", c1Run.1)], c1Run.2)
    ∧ c1Run.1 = aggC1 :=
  ⟨(c1_concrete_scenario blobC1 (by with_unfolding_all decide)).1,
   (c1_concrete_scenario blobC1 (by with_unfolding_all decide)).2.1⟩

lemma mem_insSorted (a o : Order) (l : List Order) :
    a ∈ insSorted o l ↔ a = o ∨ a ∈ l := by
  induction l with
  | nil => simp [insSorted]
  | cons x xs ih =>
    simp only [insSorted]
    split
    · simp only [List.mem_cons, ih]
      tauto
    · simp only [List.mem_cons]

lemma traceMonthSum_cons (f : TraceRow → ℚ) (M : String) (r : TraceRow)
    (rows : List TraceRow) :
    traceMonthSum f M (r :: rows) =
      (if r.month = M then f r else 0) + traceMonthSum f M rows := by
  simp only [traceMonthSum, List.filter_cons]
  by_cases h : r.month = M
  · simp [h]
  · simp [h]

lemma traceMonthSum_append (f : TraceRow → ℚ) (M : String)
    (rows1 rows2 : List TraceRow) :
    traceMonthSum f M (rows1 ++ rows2) =
      traceMonthSum f M rows1 + traceMonthSum f M rows2 := by
  simp [traceMonthSum, List.filter_append]

lemma sum_map_add {α : Type} (f g : α → ℚ) :
    ∀ l : List α, (l.map (fun x => f x + g x)).sum = (l.map f).sum + (l.map g).sum := by
  intro l
  induction l with
  | nil => simp
  | cons a l ih =>
    simp only [List.map_cons, List.sum_cons, ih]
    ring

lemma traceMonthSum_add (f g : TraceRow → ℚ) (M : String) (rows : List TraceRow) :
    traceMonthSum (fun r => f r + g r) M rows =
      traceMonthSum f M rows + traceMonthSum g M rows := by
  simp [traceMonthSum, sum_map_add]

lemma runOrdersFull_month_sums (cfg : String → Config) (brackets : List Bracket)
    (W : Int) (cid M : String) :
    ∀ (os : List Order) (n : Nat) (st : FullState),
      traceMonthSum TraceRow.silver_rev M (runOrdersFull cfg brackets W cid os n st).2 =
        monthRevSum Order.silver_revenue M os
      ∧ traceMonthSum TraceRow.gold_rev M (runOrdersFull cfg brackets W cid os n st).2 =
        monthRevSum Order.gold_revenue M os := by
  intro os
  induction os with
  | nil => intro n st; simp [runOrdersFull, traceMonthSum, monthRevSum]
  | cons o os ih =>
    intro n st
    cases hp : parseDate o.order_date with
    | none =>
      simp only [runOrdersFull, processOrderFull, hp]
      constructor
      · rw [(ih (n + 1) st).1]
        simp [monthRevSum, hp]
      · rw [(ih (n + 1) st).2]
        simp [monthRevSum, hp]
    | some dt =>
      simp only [runOrdersFull, processOrderFull, hp]
      constructor
      · rw [traceMonthSum_cons, (ih (n + 1) _).1]
        simp [monthRevSum, hp]
      · rw [traceMonthSum_cons, (ih (n + 1) _).2]
        simp [monthRevSum, hp]

lemma runCustomerFull_month_sums (cfg : String → Config) (brackets : List Bracket)
    (W : Int) (cid M : String) (os : List Order) :
    traceMonthSum TraceRow.silver_rev M (runCustomerFull cfg brackets W cid os).2 =
      monthRevSum Order.silver_revenue M (pySortOrders os)
    ∧ traceMonthSum TraceRow.gold_rev M (runCustomerFull cfg brackets W cid os).2 =
      monthRevSum Order.gold_revenue M (pySortOrders os) := by
  have hh := runOrdersFull_month_sums cfg brackets W cid M (pySortOrders os) 1 initFullState
  simpa [runCustomerFull] using hh

lemma foldl_processOrderMonth_sums (cfg : String → Config) (brackets : List Bracket)
    (W : Int) (M cid : String) :
    ∀ (os : List Order) (st : MonthState) (acc : MonthAcc),
      ((os.foldl (processOrderMonth cfg brackets W M cid) (st, acc)).2).total_silver_rev =
        acc.total_silver_rev + monthRevSum Order.silver_revenue M os
      ∧ ((os.foldl (processOrderMonth cfg brackets W M cid) (st, acc)).2).total_gold_rev =
        acc.total_gold_rev + monthRevSum Order.gold_revenue M os := by
  intro os
  induction os with
  | nil => intro st acc; simp [monthRevSum]
  | cons o os ih =>
    intro st acc
    cases hp : parseDate o.order_date with
    | none =>
      simp only [List.foldl_cons, processOrderMonth, hp]
      constructor
      · rw [(ih st acc).1]
        simp [monthRevSum, hp]
      · rw [(ih st acc).2]
        simp [monthRevSum, hp]
    | some dt =>
      simp only [List.foldl_cons, processOrderMonth, hp]
      by_cases ht : monthKey dt = M
      · simp only [if_pos ht]
        constructor
        · rw [(ih _ _).1]
          simp only [monthRevSum, List.map_cons, List.sum_cons, hp, if_pos ht]
          ring
        · rw [(ih _ _).2]
          simp only [monthRevSum, List.map_cons, List.sum_cons, hp, if_pos ht]
          ring
      · simp only [if_neg ht]
        constructor
        · rw [(ih _ _).1]
          simp only [monthRevSum, List.map_cons, List.sum_cons, hp, if_neg ht]
          ring
        · rw [(ih _ _).2]
          simp only [monthRevSum, List.map_cons, List.sum_cons, hp, if_neg ht]
          ring

lemma runCustomerMonth_sums (cfg : String → Config) (brackets : List Bracket)
    (W : Int) (M cid : String) (os : List Order) (acc : MonthAcc) :
    (runCustomerMonth cfg brackets W M cid os acc).total_silver_rev =
      acc.total_silver_rev + monthRevSum Order.silver_revenue M (pySortOrders os)
    ∧ (runCustomerMonth cfg brackets W M cid os acc).total_gold_rev =
      acc.total_gold_rev + monthRevSum Order.gold_revenue M (pySortOrders os) := by
  have hh := foldl_processOrderMonth_sums cfg brackets W M cid (pySortOrders os)
    initMonthState acc
  simp only [runCustomerMonth]
  split_ifs with hc <;> simpa using hh

lemma c2_folds (cfg : String → Config) (brackets : List Bracket) (W : Int) (M : String) :
    ∀ (df : List (String × String)) (accM : MonthAcc)
      (dict : List (String × CustAgg)) (rows : List TraceRow),
      (df.foldlM (monthDfStep cfg brackets W M) accM).map
          (fun r => (r.total_silver_rev, r.total_gold_rev)) =
        (df.foldlM (fullDfStep cfg brackets W) (dict, rows)).map
          (fun p => (accM.total_silver_rev + traceMonthSum TraceRow.silver_rev M p.2
                      - traceMonthSum TraceRow.silver_rev M rows,
                     accM.total_gold_rev + traceMonthSum TraceRow.gold_rev M p.2
                      - traceMonthSum TraceRow.gold_rev M rows)) := by
  intro df
  induction df with
  | nil =>
    intro accM dict rows
    simp only [List.foldlM_nil, Except.map, pure, Except.pure, Except.ok.injEq,
      Prod.mk.injEq]
    constructor <;> ring
  | cons row df ih =>
    intro accM dict rows
    cases hp : parse_order_history row.2 with
    | error e =>
      cases e
      rw [List.foldlM_cons, List.foldlM_cons]
      have h1 : monthDfStep cfg brackets W M accM row = Except.error () := by
        unfold monthDfStep
        rw [hp]
        rfl
      have h2 : fullDfStep cfg brackets W (dict, rows) row = Except.error () := by
        unfold fullDfStep
        rw [hp]
        rfl
      rw [h1, h2]
      rfl
    | ok os =>
      have hstepM : monthDfStep cfg brackets W M accM row =
          Except.ok (runCustomerMonth cfg brackets W M row.1 os accM) := by
        unfold monthDfStep
        rw [hp]
        rfl
      have hstepF : fullDfStep cfg brackets W (dict, rows) row =
          Except.ok (dictInsert dict row.1 (runCustomerFull cfg brackets W row.1 os).1,
            rows ++ (runCustomerFull cfg brackets W row.1 os).2) := by
        unfold fullDfStep
        rw [hp]
        rfl
      rw [List.foldlM_cons, List.foldlM_cons, hstepM, hstepF]
      simp only [bind, Except.bind]
      rw [ih (runCustomerMonth cfg brackets W M row.1 os accM)
        (dictInsert dict row.1 (runCustomerFull cfg brackets W row.1 os).1)
        (rows ++ (runCustomerFull cfg brackets W row.1 os).2)]
      have hms := runCustomerMonth_sums cfg brackets W M row.1 os accM
      have hfs := runCustomerFull_month_sums cfg brackets W row.1 M os
      congr 1
      funext p
      have e1 : traceMonthSum TraceRow.silver_rev M
          (rows ++ (runCustomerFull cfg brackets W row.1 os).2) =
          traceMonthSum TraceRow.silver_rev M rows +
            monthRevSum Order.silver_revenue M (pySortOrders os) := by
        rw [traceMonthSum_append, hfs.1]
      have e2 : traceMonthSum TraceRow.gold_rev M
          (rows ++ (runCustomerFull cfg brackets W row.1 os).2) =
          traceMonthSum TraceRow.gold_rev M rows +
            monthRevSum Order.gold_revenue M (pySortOrders os) := by
        rw [traceMonthSum_append, hfs.2]
      rw [hms.1, hms.2, e1, e2]
      simp only [Prod.mk.injEq]
      constructor <;> ring

/-- C2: driver consistency.  For every dataset, bracket list, configuration,
expiry window and month `M`, the month-scoped driver's `total_silver_rev`
and `total_gold_rev` (hence also their sum) equal the sums of `silver_rev`
and `gold_rev` over exactly those full-history trace rows whose month key
is `M`; when one driver raises (a malformed numeric token), both raise. -/
theorem c2_driver_consistency (df : List (String × String)) (cfg : String → Config)
    (brackets : List Bracket) (W : Int) (M : String) (h : brackets ≠ []) :
    (calculate_cashback_for_month df M cfg brackets W).map MonthAcc.total_silver_rev =
      (calculate_cashback df cfg brackets W).map
        (fun p => traceMonthSum TraceRow.silver_rev M p.2)
    ∧ (calculate_cashback_for_month df M cfg brackets W).map MonthAcc.total_gold_rev =
      (calculate_cashback df cfg brackets W).map
        (fun p => traceMonthSum TraceRow.gold_rev M p.2)
    ∧ (calculate_cashback_for_month df M cfg brackets W).map
        (fun r => r.total_silver_rev + r.total_gold_rev) =
      (calculate_cashback df cfg brackets W).map
        (fun p => traceMonthSum (fun row => row.silver_rev + row.gold_rev) M p.2) := by
  have key := c2_folds cfg brackets W M df initMonthAcc [] []
  unfold calculate_cashback_for_month calculate_cashback
  cases hM : df.foldlM (monthDfStep cfg brackets W M) initMonthAcc with
  | error e =>
    cases hF : df.foldlM (fullDfStep cfg brackets W) ([], []) with
    | error e2 => simp [Except.map]
    | ok p =>
      rw [hM, hF] at key
      simp [Except.map] at key
  | ok r =>
    cases hF : df.foldlM (fullDfStep cfg brackets W) ([], []) with
    | error e2 =>
      rw [hM, hF] at key
      simp [Except.map] at key
    | ok p =>
      rw [hM, hF] at key
      simp only [Except.map, initMonthAcc, traceMonthSum, List.filter_nil, List.map_nil,
        List.sum_nil, Except.ok.injEq, Prod.mk.injEq] at key
      obtain ⟨hs, hg⟩ := key
      refine ⟨?_, ?_, ?_⟩ <;> simp only [Except.map]
      · rw [hs]
        norm_num [traceMonthSum]
      · rw [hg]
        norm_num [traceMonthSum]
      · rw [hs, hg, traceMonthSum_add]
        norm_num [traceMonthSum]

/-- Closed instance of `c2_driver_consistency` on the two-order dataset. -/
theorem c2_witness :
    (calculate_cashback_for_month [("C1", blobC1)] "2024-01" cfgStd bracketsOne 180).map
        MonthAcc.total_silver_rev =
      (calculate_cashback [("C1", blobC1)] cfgStd bracketsOne 180).map
        (fun p => traceMonthSum TraceRow.silver_rev "2024-01" p.2) :=
  (c2_driver_consistency [("C1", blobC1)] cfgStd bracketsOne 180 "2024-01"
    (by simp [bracketsOne])).1



lemma charLt_iff (a b : Char) : a.toNat < b.toNat ↔ a < b := by
  rw [Char.lt_iff_val_lt_val]
  exact Iff.rfl

lemma charList_lt_iff_lex (l1 l2 : List Char) :
    l1 < l2 ↔ List.Lex (fun x1 x2 : Char => x1 < x2) l1 l2 :=
  Iff.rfl

lemma char_toNat_inj {a b : Char} (h : a.toNat = b.toNat) : a = b := by
  have hv : a.val = b.val := by
    apply UInt32.ext
    exact h
  exact Char.ext hv

lemma charListLt_iff : ∀ l1 l2 : List Char,
    (charListLt l1 l2 = true ↔ List.Lex (fun x1 x2 : Char => x1 < x2) l1 l2) := by
  intro l1
  induction l1 with
  | nil =>
    intro l2
    cases l2 with
    | nil =>
      simp only [charListLt]
      constructor
      · intro h
        cases h
      · intro h
        cases h
    | cons b bs =>
      simp only [charListLt]
      exact iff_of_true (by simp) List.Lex.nil
  | cons a as ih =>
    intro l2
    cases l2 with
    | nil =>
      simp only [charListLt]
      constructor
      · intro h
        cases h
      · intro h
        cases h
    | cons b bs =>
      simp only [charListLt]
      by_cases h1 : a.toNat < b.toNat
      · rw [if_pos h1]
        exact iff_of_true (by simp) (List.Lex.rel ((charLt_iff a b).mp h1))
      · rw [if_neg h1]
        by_cases h2 : b.toNat < a.toNat
        · rw [if_pos h2]
          constructor
          · intro h
            cases h
          · intro h
            cases h with
            | rel hr => exact absurd ((charLt_iff a b).mpr hr) h1
            | cons h3 => exact absurd h2 (lt_irrefl _)
        · rw [if_neg h2]
          have hab : a = b := char_toNat_inj (by omega)
          subst hab
          rw [ih bs]
          constructor
          · exact fun h => List.Lex.cons h
          · intro h
            cases h with
            | rel hr => exact absurd hr (lt_irrefl _)
            | cons h3 => exact h3

lemma pyStrLe_iff (a b : String) : pyStrLe a b = true ↔ a ≤ b := by
  unfold pyStrLe
  constructor
  · intro h
    rw [← not_lt]
    intro hba
    have hcl : charListLt b.toList a.toList = true :=
      (charListLt_iff _ _).mpr ((charList_lt_iff_lex _ _).mp (String.lt_iff_toList_lt.mp hba))
    rw [hcl] at h
    cases h
  · intro h
    cases hcl : charListLt b.toList a.toList with
    | false => rfl
    | true =>
      have hba : b < a := String.lt_iff_toList_lt.mpr
        ((charList_lt_iff_lex _ _).mpr ((charListLt_iff _ _).mp hcl))
      exact absurd hba (not_lt.mpr h)

lemma insSorted_pairwise (o : Order) (l : List Order)
    (h : List.Pairwise (fun a b : Order => a.order_date ≤ b.order_date) l) :
    List.Pairwise (fun a b : Order => a.order_date ≤ b.order_date) (insSorted o l) := by
  induction l with
  | nil => simp [insSorted]
  | cons x xs ih =>
    rcases List.pairwise_cons.mp h with ⟨hx, hxs⟩
    simp only [insSorted]
    by_cases hle : pyStrLe x.order_date o.order_date = true
    · rw [if_pos hle]
      refine List.pairwise_cons.mpr ⟨?_, ih hxs⟩
      intro y hy
      rcases (mem_insSorted y o xs).mp hy with rfl | hy2
      · exact (pyStrLe_iff _ _).mp hle
      · exact hx y hy2
    · rw [if_neg hle]
      refine List.pairwise_cons.mpr ⟨?_, h⟩
      have hox : o.order_date ≤ x.order_date := by
        have hns : ¬ x.order_date ≤ o.order_date :=
          fun hc => hle ((pyStrLe_iff _ _).mpr hc)
        exact le_of_lt (not_le.mp hns)
      intro y hy
      rcases List.mem_cons.mp hy with rfl | hy2
      · exact hox
      · exact le_trans hox (hx y hy2)

lemma pySort_pairwise_aux :
    ∀ (l acc : List Order),
      List.Pairwise (fun a b : Order => a.order_date ≤ b.order_date) acc →
      List.Pairwise (fun a b : Order => a.order_date ≤ b.order_date)
        (l.foldl (fun acc o => insSorted o acc) acc) := by
  intro l
  induction l with
  | nil => intro acc h; simpa using h
  | cons o os ih =>
    intro acc h
    simp only [List.foldl_cons]
    exact ih (insSorted o acc) (insSorted_pairwise o acc h)

lemma pySort_pairwise (l : List Order) :
    List.Pairwise (fun a b : Order => a.order_date ≤ b.order_date) (pySortOrders l) :=
  pySort_pairwise_aux l [] List.Pairwise.nil

lemma insSorted_filter (o : Order) (l : List Order) (s : String)
    (h : List.Pairwise (fun a b : Order => a.order_date ≤ b.order_date) l) :
    (insSorted o l).filter (fun x => x.order_date = s) =
      (if o.order_date = s then
        l.filter (fun x => x.order_date = s) ++ [o]
      else l.filter (fun x => x.order_date = s)) := by
  induction l with
  | nil =>
    by_cases ho : o.order_date = s <;> simp [insSorted, ho]
  | cons x xs ih =>
    rcases List.pairwise_cons.mp h with ⟨hx, hxs⟩
    simp only [insSorted]
    by_cases hle : pyStrLe x.order_date o.order_date = true
    · rw [if_pos hle]
      by_cases hxsx : x.order_date = s <;> by_cases ho : o.order_date = s <;>
        simp [List.filter_cons, hxsx, ho, ih hxs]
    · rw [if_neg hle]
      have hox : o.order_date < x.order_date := by
        have hns : ¬ x.order_date ≤ o.order_date :=
          fun hc => hle ((pyStrLe_iff _ _).mpr hc)
        exact not_le.mp hns
      by_cases ho : o.order_date = s
      · have hnone : (x :: xs).filter (fun y => y.order_date = s) = [] := by
          rw [List.filter_eq_nil_iff]
          intro y hy
          have hxy : x.order_date ≤ y.order_date := by
            rcases List.mem_cons.mp hy with rfl | hy2
            · exact le_rfl
            · exact hx y hy2
          have hlt : s < y.order_date := lt_of_lt_of_le (ho ▸ hox) hxy
          simp only [decide_eq_true_eq]
          exact fun he => absurd (he ▸ hlt) (lt_irrefl _)
        simp [List.filter_cons, ho, hnone]
      · simp [List.filter_cons, ho]

lemma pySort_filter_aux (s : String) :
    ∀ (l acc : List Order),
      List.Pairwise (fun a b : Order => a.order_date ≤ b.order_date) acc →
      (l.foldl (fun acc o => insSorted o acc) acc).filter (fun x => x.order_date = s) =
        acc.filter (fun x => x.order_date = s) ++ l.filter (fun x => x.order_date = s) := by
  intro l
  induction l with
  | nil => intro acc h; simp
  | cons o os ih =>
    intro acc h
    simp only [List.foldl_cons]
    rw [ih (insSorted o acc) (insSorted_pairwise o acc h)]
    rw [insSorted_filter o acc s h]
    by_cases ho : o.order_date = s <;> simp [List.filter_cons, ho]

lemma pySort_filter (l : List Order) (s : String) :
    (pySortOrders l).filter (fun x => x.order_date = s) =
      l.filter (fun x => x.order_date = s) := by
  simpa [pySortOrders] using pySort_filter_aux s l [] List.Pairwise.nil

lemma digitsBE_length : ∀ (w n : Nat), (digitsBE w n).length = w := by
  intro w
  induction w with
  | zero => intro n; simp [digitsBE]
  | succ w ih => intro n; simp [digitsBE, ih]

lemma digitCh_lt_iff (a b : Nat) (ha : a < 10) (hb : b < 10) :
    (digitCh a < digitCh b) ↔ a < b := by
  interval_cases a <;> interval_cases b <;> decide

lemma digitCh_inj (a b : Nat) (ha : a < 10) (hb : b < 10) :
    (digitCh a = digitCh b) ↔ a = b := by
  interval_cases a <;> interval_cases b <;> decide

lemma lex_append_iff :
    ∀ (a b c d : List Char), a.length = b.length →
      (List.Lex (fun x1 x2 : Char => x1 < x2) (a ++ c) (b ++ d) ↔
        List.Lex (fun x1 x2 : Char => x1 < x2) a b ∨
          (a = b ∧ List.Lex (fun x1 x2 : Char => x1 < x2) c d)) := by
  intro a
  induction a with
  | nil =>
    intro b c d hlen
    cases b with
    | nil =>
      simp only [List.nil_append]
      constructor
      · intro h
        exact Or.inr ⟨by simp, h⟩
      · rintro (h | ⟨_, h⟩)
        · cases h
        · exact h
    | cons y bs => simp at hlen
  | cons x as ih =>
    intro b c d hlen
    cases b with
    | nil => simp at hlen
    | cons y bs =>
      simp only [List.cons_append]
      constructor
      · intro h
        cases h with
        | rel hr => exact Or.inl (List.Lex.rel hr)
        | cons htail =>
          rcases (ih bs c d (by simpa using hlen)).mp htail with h2 | ⟨heq, h3⟩
          · exact Or.inl (List.Lex.cons h2)
          · exact Or.inr ⟨by rw [heq], h3⟩
      · rintro (h | ⟨heq, h3⟩)
        · cases h with
          | rel hr => exact List.Lex.rel hr
          | cons h2 =>
            exact List.Lex.cons ((ih bs c d (by simpa using hlen)).mpr (Or.inl h2))
        · injection heq with hxy hab
          subst hxy
          subst hab
          exact List.Lex.cons ((ih as c d rfl).mpr (Or.inr ⟨rfl, h3⟩))

lemma lex_single_iff (a b : Char) :
    List.Lex (fun x1 x2 : Char => x1 < x2) [a] [b] ↔ a < b := by
  constructor
  · intro h
    cases h with
    | rel hr => exact hr
    | cons h2 => cases h2
  · exact fun h => List.Lex.rel h

lemma digitsBE_inj :
    ∀ (w n m : Nat), n < 10 ^ w → m < 10 ^ w →
      (digitsBE w n = digitsBE w m ↔ n = m) := by
  intro w
  induction w with
  | zero =>
    intro n m hn hm
    have h1 : n = 0 := by simpa using hn
    have h2 : m = 0 := by simpa using hm
    subst h1
    subst h2
    simp
  | succ w ih =>
    intro n m hn hm
    have hn2 : n / 10 < 10 ^ w := by
      rw [Nat.div_lt_iff_lt_mul (by norm_num)]
      calc n < 10 ^ (w + 1) := hn
        _ = 10 ^ w * 10 := pow_succ 10 w
    have hm2 : m / 10 < 10 ^ w := by
      rw [Nat.div_lt_iff_lt_mul (by norm_num)]
      calc m < 10 ^ (w + 1) := hm
        _ = 10 ^ w * 10 := pow_succ 10 w
    simp only [digitsBE]
    constructor
    · intro h
      obtain ⟨h1, h2⟩ := List.append_inj' h (by simp)
      have e1 : n / 10 = m / 10 := (ih _ _ hn2 hm2).mp h1
      have e2 : n % 10 = m % 10 := by
        simp only [List.cons.injEq, and_true] at h2
        exact (digitCh_inj _ _ (Nat.mod_lt _ (by norm_num))
          (Nat.mod_lt _ (by norm_num))).mp h2
      omega
    · rintro rfl
      rfl

lemma digitsBE_lt_iff :
    ∀ (w n m : Nat), n < 10 ^ w → m < 10 ^ w →
      (List.Lex (fun x1 x2 : Char => x1 < x2) (digitsBE w n) (digitsBE w m) ↔ n < m) := by
  intro w
  induction w with
  | zero =>
    intro n m hn hm
    have h1 : n = 0 := by simpa using hn
    have h2 : m = 0 := by simpa using hm
    subst h1
    subst h2
    simp only [digitsBE]
    constructor
    · intro h
      cases h
    · omega
  | succ w ih =>
    intro n m hn hm
    have hn2 : n / 10 < 10 ^ w := by
      rw [Nat.div_lt_iff_lt_mul (by norm_num)]
      calc n < 10 ^ (w + 1) := hn
        _ = 10 ^ w * 10 := pow_succ 10 w
    have hm2 : m / 10 < 10 ^ w := by
      rw [Nat.div_lt_iff_lt_mul (by norm_num)]
      calc m < 10 ^ (w + 1) := hm
        _ = 10 ^ w * 10 := pow_succ 10 w
    simp only [digitsBE]
    rw [lex_append_iff _ _ _ _ (by rw [digitsBE_length, digitsBE_length])]
    rw [ih _ _ hn2 hm2, lex_single_iff,
      digitCh_lt_iff _ _ (Nat.mod_lt _ (by norm_num)) (Nat.mod_lt _ (by norm_num)),
      digitsBE_inj _ _ _ hn2 hm2]
    omega

lemma fmtDate_lt_iff (y1 m1 d1 y2 m2 d2 : Nat)
    (hy1 : y1 < 10000) (hm1 : m1 < 100) (hd1 : d1 < 100)
    (hy2 : y2 < 10000) (hm2 : m2 < 100) (hd2 : d2 < 100) :
    (fmtDate y1 m1 d1 < fmtDate y2 m2 d2 ↔
      (y1 < y2 ∨ (y1 = y2 ∧ (m1 < m2 ∨ (m1 = m2 ∧ d1 < d2))))) := by
  have hy1p : y1 < 10 ^ 4 := by norm_num [hy1]
  have hy2p : y2 < 10 ^ 4 := by norm_num [hy2]
  have hm1p : m1 < 10 ^ 2 := by norm_num [hm1]
  have hm2p : m2 < 10 ^ 2 := by norm_num [hm2]
  have hd1p : d1 < 10 ^ 2 := by norm_num [hd1]
  have hd2p : d2 < 10 ^ 2 := by norm_num [hd2]
  have hcons : ∀ u v : List Char,
      (List.Lex (fun x1 x2 : Char => x1 < x2) ('-' :: u) ('-' :: v) ↔
        List.Lex (fun x1 x2 : Char => x1 < x2) u v) := by
    intro u v
    constructor
    · intro h
      cases h with
      | rel hr => exact absurd hr (lt_irrefl _)
      | cons h2 => exact h2
    · exact fun h => List.Lex.cons h
  rw [String.lt_iff_toList_lt]
  have e1 : (fmtDate y1 m1 d1).toList =
      digitsBE 4 y1 ++ '-' :: (digitsBE 2 m1 ++ '-' :: digitsBE 2 d1) := rfl
  have e2 : (fmtDate y2 m2 d2).toList =
      digitsBE 4 y2 ++ '-' :: (digitsBE 2 m2 ++ '-' :: digitsBE 2 d2) := rfl
  rw [e1, e2, charList_lt_iff_lex]
  rw [lex_append_iff _ _ _ _ (by rw [digitsBE_length, digitsBE_length])]
  rw [hcons]
  rw [lex_append_iff _ _ _ _ (by rw [digitsBE_length, digitsBE_length])]
  rw [hcons]
  rw [digitsBE_lt_iff _ _ _ hy1p hy2p, digitsBE_inj _ _ _ hy1p hy2p,
    digitsBE_lt_iff _ _ _ hm1p hm2p, digitsBE_inj _ _ _ hm1p hm2p,
    digitsBE_lt_iff _ _ _ hd1p hd2p]

/-- C10: both drivers sort each customer's parsed orders with Python's
stable sort keyed on the raw `order_date` string (`pySortOrders`): the
result is non-decreasing in the code-point order of the date strings, and
the orders sharing any given date string appear in their original
sub-record order; this string order coincides with chronological order
exactly on zero-padded `YYYY-MM-DD` strings (any other strings, such as
the default `"N/A"`, are placed purely by string comparison). -/
theorem c10_stable_string_sort (l : List Order) (s : String)
    (y1 m1 d1 y2 m2 d2 : Nat)
    (hy1 : y1 < 10000) (hm1 : m1 < 100) (hd1 : d1 < 100)
    (hy2 : y2 < 10000) (hm2 : m2 < 100) (hd2 : d2 < 100) :
    List.Pairwise (fun a b : Order => a.order_date ≤ b.order_date) (pySortOrders l)
    ∧ (pySortOrders l).filter (fun x => x.order_date = s) =
        l.filter (fun x => x.order_date = s)
    ∧ (fmtDate y1 m1 d1 < fmtDate y2 m2 d2 ↔
        (y1 < y2 ∨ (y1 = y2 ∧ (m1 < m2 ∨ (m1 = m2 ∧ d1 < d2))))) :=
  ⟨pySort_pairwise l, pySort_filter l s,
    fmtDate_lt_iff y1 m1 d1 y2 m2 d2 hy1 hm1 hd1 hy2 hm2 hd2⟩

/-- Closed instance of `c10_stable_string_sort`: the two-order list is
re-sorted into date order and `2024-01-05` precedes `2024-01-31`. -/
theorem c10_witness :
    List.Pairwise (fun a b : Order => a.order_date ≤ b.order_date)
      (pySortOrders [orderB, orderA])
    ∧ (pySortOrders [orderB, orderA]).filter
        (fun x => x.order_date = "2024-01-01") =
      [orderB, orderA].filter (fun x => x.order_date = "2024-01-01")
    ∧ (fmtDate 2024 1 5 < fmtDate 2024 1 31 ↔
        (2024 < 2024 ∨ (2024 = 2024 ∧ (1 < 1 ∨ (1 = 1 ∧ 5 < 31))))) :=
  c10_stable_string_sort [orderB, orderA] "2024-01-01" 2024 1 5 2024 1 31
    (by norm_num) (by norm_num) (by norm_num) (by norm_num) (by norm_num) (by norm_num)


end CashBack
